import Mathlib

/-
Verification of the agentready assessment engine (structure assessors,
proportional scoring, and the dependency-security / conventional-commits
assessors) against its natural-language specification.

The repository is modelled shallowly: a `Repository` supplies the outcome of
every filesystem probe an assessor performs (path existence, text reads,
JSON/YAML parse results, directory listings).  Reads and parses that can fail
in Python are `Except` values, so an assessor that "never raises" is a total
Lean function from `Repository` to `Finding`.
-/

/-- ASCII whitespace, as matched by a Python regex `\s` on ASCII text. -/
def isSpaceCh (c : Char) : Bool :=
  c = ' ' || c = '\t' || c = '\n' || c = '\r' || c = '\x0b' || c = '\x0c'

/-- Characters matched by the character class `[a-z\-_]` under `re.IGNORECASE`. -/
def isWordCh (c : Char) : Bool :=
  c.isAlpha || c = '-' || c = '_'

/-- Case-insensitive literal prefix match: returns the remainder of `s` after
the pattern when the pattern matches, `none` otherwise. -/
def stripPrefixCI : List Char → List Char → Option (List Char)
  | [], s => some s
  | _ :: _, [] => none
  | p :: ps, c :: cs => if p.toLower = c.toLower then stripPrefixCI ps cs else none

/-- Substring test on character lists (Python `pat in s`). -/
def listContainsSub (s pat : List Char) : Bool :=
  pat.isPrefixOf s ||
    match s with
    | [] => false
    | _ :: cs => listContainsSub cs pat

/-- Substring test on strings (Python `pat in s`). -/
def strContains (s pat : String) : Bool :=
  listContainsSub s.data pat.data

/-- Python `sep.join(items)`. -/
def joinSep (sep : String) : List String → String
  | [] => ""
  | [x] => x
  | x :: y :: xs => x ++ sep ++ joinSep sep (y :: xs)

/-- The decimal digit character for `k` (for `k ≤ 9`). -/
def digitCharOf (k : Nat) : Char :=
  if k = 0 then '0' else if k = 1 then '1' else if k = 2 then '2'
  else if k = 3 then '3' else if k = 4 then '4' else if k = 5 then '5'
  else if k = 6 then '6' else if k = 7 then '7' else if k = 8 then '8' else '9'

/-- Decimal digits with explicit fuel; the fuel is always sufficient at the
call site below, so the fuel-exhausted branch is unreachable. -/
def natDigitsAux : Nat → Nat → List Char
  | 0, n => [digitCharOf n]
  | fuel + 1, n =>
    if n < 10 then [digitCharOf n]
    else natDigitsAux fuel (n / 10) ++ [digitCharOf (n % 10)]

/-- Decimal digits of a natural number, most significant first. -/
def natDigits (n : Nat) : List Char :=
  natDigitsAux n n

/-- Decimal rendering of a natural number (Python `str(n)`). -/
def natStr (n : Nat) : String :=
  String.mk (natDigits n)

/-- Citation attached to remediation guidance (models/finding.py `Citation`). -/
structure Citation where
  source : String
  title : String
  url : String
  relevance : String
deriving DecidableEq, Repr

/-- Structured remediation guidance (models/finding.py `Remediation`). -/
structure Remediation where
  summary : String
  steps : List String
  tools : List String
  commands : List String
  examples : List String
  citations : List Citation
deriving DecidableEq, Repr

/-- Static attribute metadata (models/attribute.py `Attribute`). -/
structure Attribute where
  id : String
  name : String
  category : String
  tier : Nat
  description : String
  criteria : String
  default_weight : ℚ
deriving DecidableEq, Repr

/-- Per-attribute assessment result (models/finding.py `Finding`). -/
structure Finding where
  «attribute» : Attribute
  status : String
  score : ℚ
  measured_value : String
  threshold : String
  evidence : List String
  remediation : Option Remediation
  error_message : Option String
deriving DecidableEq, Repr

/-- Parsed JSON/YAML value, as produced by `json.loads` / `yaml.safe_load`. -/
inductive JVal where
  | null : JVal
  | bool (b : Bool) : JVal
  | num (n : Int) : JVal
  | str (s : String) : JVal
  | arr (elems : List JVal) : JVal
  | obj (fields : List (String × JVal)) : JVal

/-- Dictionary lookup on a parsed JSON/YAML object. -/
def JVal.lookup (v : JVal) (key : String) : Option JVal :=
  match v with
  | .obj fs => fs.lookup key
  | _ => none

/-- Snapshot of the scanned repository (models/repository.py `Repository`),
together with the outcomes of the filesystem probes assessors perform:
`path_exists p` is `Path(p).exists()`, `read_text p` the outcome of
`Path(p).read_text()` (error = raised exception message), `parse_json p` /
`parse_yaml p` the outcome of reading and strictly parsing the file at `p`
(error = missing, unreadable or malformed), and `list_dir d` the directory
listing of `d`. -/
structure Repository where
  name : String
  url : Option String
  branch : String
  commit_hash : String
  languages : List (String × Nat)
  total_files : Nat
  total_lines : Nat
  path_exists : String → Bool
  read_text : String → Except String String
  parse_json : String → Except String JVal
  parse_yaml : String → Except String JVal
  list_dir : String → List String

/-- Modelled from the spec: `Finding.not_applicable` convenience constructor
(models/finding.py is not among the sources).  Per spec section 3, the finding
has status `not_applicable`, no remediation and no error message; its score is
not meaningful and is recorded as 0. -/
def Finding.not_applicable (attr : Attribute) (reason : String) : Finding :=
  { «attribute» := attr
    status := "not_applicable"
    score := 0
    measured_value := "not applicable"
    threshold := ""
    evidence := [reason]
    remediation := none
    error_message := none }

/-- Modelled from the spec: `BaseAssessor.calculate_proportional_score`
(assessors/base.py is not among the sources).  Per spec section 4.1: when
`higher_is_better`, score = clamp(measured/threshold * 100, 0, 100); when a
lower measured value is better the ratio is inverted; division by a zero
threshold yields 100 (nothing required, trivially satisfied), and symmetrically
a zero measured value in the inverted case yields 100. -/
def calculate_proportional_score (measured_value threshold : ℚ)
    (higher_is_better : Bool) : ℚ :=
  if threshold = 0 then 100
  else if higher_is_better then
    min 100 (max 0 (measured_value / threshold * 100))
  else if measured_value = 0 then 100
  else min 100 (max 0 (threshold / measured_value * 100))

/-- Attribute descriptor of `StandardLayoutAssessor` (structure.py). -/
def standardLayoutAttribute : Attribute :=
  { id := "standard_layout"
    name := "Standard Project Layouts"
    category := "Repository Structure"
    tier := 1
    description := "Follows standard project structure for language"
    criteria := "Standard directories (src/, tests/, docs/) present"
    default_weight := 1/10 }

/-- Remediation built by `StandardLayoutAssessor._create_remediation`
(structure.py). -/
def standardLayoutRemediation : Remediation :=
  { summary := "Organize code into standard directories (src/, tests/, docs/)"
    steps :=
      [ "Create src/ directory for source code"
      , "Create tests/ directory for test files"
      , "Create docs/ directory for documentation"
      , "Move source code into src/"
      , "Move tests into tests/" ]
    tools := []
    commands :=
      [ "mkdir -p src tests docs"
      , "# Move source files to src/"
      , "# Move test files to tests/" ]
    examples := []
    citations :=
      [ { source := "Python Packaging Authority"
          title := "Python Project Structure"
          url := "https://packaging.python.org/en/latest/tutorials/packaging-projects/"
          relevance := "Standard Python project layout" } ] }

/-- The directory count of `StandardLayoutAssessor.assess`: `src/`, plus the
tests directory (`tests/`, falling back to `test/`). -/
def standardLayout_found_dirs (repo : Repository) : Nat :=
  (if repo.path_exists "src" then 1 else 0) +
  (if repo.path_exists (if repo.path_exists "tests" then "tests" else "test")
    then 1 else 0)

def standardLayout_score (repo : Repository) : ℚ :=
  calculate_proportional_score ((standardLayout_found_dirs repo : Nat) : ℚ)
    (((2 : Nat) : Nat) : ℚ) true

def standardLayout_status (repo : Repository) : String :=
  if (75 : ℚ) ≤ standardLayout_score repo then "pass" else "fail"

def standardLayout_assess (repo : Repository) : Finding :=
  { «attribute» := standardLayoutAttribute
    status := standardLayout_status repo
    score := standardLayout_score repo
    measured_value :=
      natStr (standardLayout_found_dirs repo) ++ "/" ++ natStr 2 ++ " directories"
    threshold := natStr 2 ++ "/" ++ natStr 2 ++ " directories"
    evidence :=
      [ "Found " ++ natStr (standardLayout_found_dirs repo) ++ "/" ++ natStr 2 ++
          " standard directories"
      , "src/: " ++ (if repo.path_exists "src" then "✓" else "✗")
      , "tests/: " ++
          (if repo.path_exists "tests" || repo.path_exists "test" then "✓" else "✗") ]
    remediation :=
      if standardLayout_status repo = "fail" then some standardLayoutRemediation
      else none
    error_message := none }

/-- Attribute descriptor of `OneCommandSetupAssessor` (structure.py). -/
def oneCommandSetupAttribute : Attribute :=
  { id := "one_command_setup"
    name := "One-Command Build/Setup"
    category := "Build & Development"
    tier := 2
    description := "Single command to set up development environment from fresh clone"
    criteria := "Single command (make setup, npm install, etc.) documented prominently"
    default_weight := 3/100 }

/-- One attempt of the pattern-1 capture `([a-z\-_]+\s+(?:install|setup))`
at the given position: a maximal run of word characters, then whitespace,
then a literal `install` or `setup` (case-insensitive); the captured source
text is returned. -/
def matchCmd1 (s : List Char) : Option (List Char) :=
  let w := s.takeWhile isWordCh
  let r := s.dropWhile isWordCh
  if w.isEmpty then none
  else
    let sp := r.takeWhile isSpaceCh
    let r2 := r.dropWhile isSpaceCh
    if sp.isEmpty then none
    else if (stripPrefixCI "install".data r2).isSome then
      some (w ++ sp ++ r2.take 7)
    else if (stripPrefixCI "setup".data r2).isSome then
      some (w ++ sp ++ r2.take 5)
    else none

/-- One attempt of the pattern-2 capture
`((?:make|npm|yarn|pnpm|pip|poetry|uv|cargo|go)\s+[a-z\-_]+)` at the given
position, trying the tool alternatives in the order the regex lists them. -/
def firstToolMatch : List String → List Char → Option (List Char)
  | [], _ => none
  | t :: ts, s =>
    match stripPrefixCI t.data s with
    | none => firstToolMatch ts s
    | some r =>
      let sp := r.takeWhile isSpaceCh
      let r2 := r.dropWhile isSpaceCh
      let w := r2.takeWhile isWordCh
      if sp.isEmpty || w.isEmpty then firstToolMatch ts s
      else some (s.take t.length ++ sp ++ w)

/-- The tool alternatives of the second setup-command pattern, in regex order. -/
def setupTools : List String :=
  ["make", "npm", "yarn", "pnpm", "pip", "poetry", "uv", "cargo", "go"]

def matchCmd2 (s : List Char) : Option (List Char) :=
  firstToolMatch setupTools s

/-- The optional code-fence prefix `(?:```(?:bash|sh|shell)?\n)?` of both
setup-command patterns: tries the fence with each language tag (in regex
order), then the bare fence, and finally no fence at all, before running the
body matcher `f`. -/
def fenceThen (f : List Char → Option (List Char)) (s : List Char) :
    Option (List Char) :=
  match stripPrefixCI "```".data s with
  | none => f s
  | some r =>
    let tryLang (lang : String) : Option (List Char) :=
      match stripPrefixCI lang.data r with
      | some ('\n' :: rest) => f rest
      | _ => none
    match tryLang "bash" with
    | some g => some g
    | none =>
      match tryLang "sh" with
      | some g => some g
      | none =>
        match tryLang "shell" with
        | some g => some g
        | none =>
          match r with
          | '\n' :: rest =>
            match f rest with
            | some g => some g
            | none => f s
          | _ => f s

/-- Runs the positioned matcher `f` at every position that follows a newline,
in left-to-right order (the `(?:^|\n)` anchor of both patterns). -/
def searchAfterNewlines (f : List Char → Option (List Char)) :
    List Char → Option (List Char)
  | [] => none
  | c :: cs =>
    if c = '\n' then
      match f cs with
      | some g => some g
      | none => searchAfterNewlines f cs
    else searchAfterNewlines f cs

/-- `re.search` of an anchored pattern: position 0 first, then every
position after a newline. -/
def searchPattern (f : List Char → Option (List Char)) (s : List Char) :
    Option (List Char) :=
  match f s with
  | some g => some g
  | none => searchAfterNewlines f s

/-- Python `str.strip()`: removes leading and trailing whitespace. -/
def stripWs (l : List Char) : List Char :=
  ((l.dropWhile isSpaceCh).reverse.dropWhile isSpaceCh).reverse

/-- `OneCommandSetupAssessor._find_setup_command` (structure.py): searches the
README for the two setup-command regexes, first pattern first, and returns the
stripped captured command, or the empty string.  The `languages` argument is
accepted and ignored, as in the source. -/
def find_setup_command (readme_content : String)
    (languages : List (String × Nat)) : String :=
  match searchPattern (fenceThen matchCmd1) readme_content.data with
  | some g => String.mk (stripWs g)
  | none =>
    match searchPattern (fenceThen matchCmd2) readme_content.data with
    | some g => String.mk (stripWs g)
    | none => ""

/-- `OneCommandSetupAssessor._check_setup_files` (structure.py): the setup
automation files present, in the fixed dictionary order of the source. -/
def check_setup_files (repo : Repository) : List String :=
  [ "Makefile", "setup.sh", "bootstrap.sh", "package.json", "pyproject.toml",
    "setup.py" ].filter (fun filename => repo.path_exists filename)

/-- The splitter of `re.split(r"\n##\s+", content)`: cuts the text at every
`\n##` that is followed by at least one whitespace character, the whitespace
run being consumed greedily. -/
def splitSectionsAux : Nat → List Char → List Char → List (List Char)
  | 0, acc, s => [acc.reverse ++ s]
  | fuel + 1, acc, s =>
    match s with
    | [] => [acc.reverse]
    | '\n' :: '#' :: '#' :: rest =>
      let sp := rest.takeWhile isSpaceCh
      if sp.isEmpty then splitSectionsAux fuel ('\n' :: acc) ('#' :: '#' :: rest)
      else acc.reverse :: splitSectionsAux fuel [] (rest.dropWhile isSpaceCh)
    | c :: cs => splitSectionsAux fuel (c :: acc) cs

/-- The keywords `_is_setup_prominent` looks for. -/
def setupKeywords : List String :=
  ["install", "setup", "quick start", "getting started", "installation"]

/-- `OneCommandSetupAssessor._is_setup_prominent` (structure.py): splits the
README on `##` headers and looks for a setup keyword in the first three
sections (plus preamble), case-insensitively. -/
def is_setup_prominent (readme_content : String) : Bool :=
  let sections := splitSectionsAux readme_content.data.length [] readme_content.data
  let first_sections := List.intercalate ['\n'] (sections.take 4)
  let low := first_sections.map Char.toLower
  setupKeywords.any (fun keyword => listContainsSub low keyword.data)

/-- Remediation built by `OneCommandSetupAssessor._create_remediation`
(structure.py). -/
def oneCommandSetupRemediation : Remediation :=
  { summary := "Create single-command setup for development environment"
    steps :=
      [ "Choose setup automation tool (Makefile, setup script, or package manager)"
      , "Create setup command that handles all dependencies"
      , "Document setup command prominently in README (Quick Start section)"
      , "Ensure setup is idempotent (safe to run multiple times)"
      , "Test setup on fresh clone to verify it works" ]
    tools := ["make", "npm", "pip", "poetry"]
    commands :=
      [ "# Example Makefile"
      , "cat > Makefile << \x27EOF\x27"
      , ".PHONY: setup"
      , "setup:"
      , "\tpython -m venv venv"
      , "\t. venv/bin/activate && pip install -r requirements.txt"
      , "\tpre-commit install"
      , "\tcp .env.example .env"
      , "\t@echo \x27Setup complete! Run make test to verify.\x27"
      , "EOF" ]
    examples :=
      [ "# Quick Start section in README\n\n## Quick Start\n\n```bash\nmake setup  # One command to set up development environment\nmake test   # Run tests to verify setup\n```\n" ]
    citations :=
      [ { source := "freeCodeCamp"
          title := "Using make for project automation"
          url := "https://www.freecodecamp.org/news/want-to-know-the-easiest-way-to-save-time-use-make/"
          relevance := "Guide to using Makefiles for one-command setup" } ] }

/-- `OneCommandSetupAssessor.assess` (structure.py): not applicable without a
README; an unreadable README is an error finding; otherwise a 40/30/30
composite of setup command in README, setup automation file, and setup
instructions in a prominent location, passing at 75. -/
def oneCommandSetup_assess (repo : Repository) : Finding :=
  if repo.path_exists "README.md" = false then
    Finding.not_applicable oneCommandSetupAttribute
      "No README found, cannot assess setup documentation"
  else
    match repo.read_text "README.md" with
    | .error e =>
      { «attribute» := oneCommandSetupAttribute
        status := "error"
        score := 0
        measured_value := "error reading README"
        threshold := "single command documented"
        evidence := ["Error reading README: " ++ e]
        remediation := none
        error_message := some e }
    | .ok readme_content =>
      let setup_command := find_setup_command readme_content repo.languages
      let setup_files := check_setup_files repo
      let score : ℚ :=
        (if setup_command ≠ "" then 40 else 0) +
        (if setup_files ≠ [] then 30 else 0) +
        (if is_setup_prominent readme_content then 30 else 0)
      let evidence :=
        [ if setup_command ≠ "" then
            "Setup command found in README: \x27" ++ setup_command ++ "\x27"
          else "No clear setup command found in README"
        , if setup_files ≠ [] then
            "Setup automation found: " ++ joinSep ", " setup_files
          else "No Makefile or setup script found"
        , if is_setup_prominent readme_content then
            "Setup instructions in prominent location"
          else "Setup instructions not in first 3 sections" ]
      let status := if (75 : ℚ) ≤ score then "pass" else "fail"
      { «attribute» := oneCommandSetupAttribute
        status := status
        score := score
        measured_value := if setup_command ≠ "" then setup_command else "multi-step setup"
        threshold := "single command"
        evidence := evidence
        remediation := if status = "fail" then some oneCommandSetupRemediation else none
        error_message := none }

/-- A partial scoring bucket of the dependency-security assessor: the points
it contributes, the tool names it adds to the measured value, and the
evidence lines it appends. -/
structure Bucket where
  points : ℚ
  tools : List String
  evidence : List String
deriving DecidableEq, Repr

def emptyBucket : Bucket := { points := 0, tools := [], evidence := [] }

def addBucket (a b : Bucket) : Bucket :=
  { points := a.points + b.points
    tools := a.tools ++ b.tools
    evidence := a.evidence ++ b.evidence }

/-- Number of monitored package ecosystems in a parsed Dependabot config:
the length of its `updates` list. -/
def countEcosystems (v : JVal) : Nat :=
  match v.lookup "updates" with
  | some (.arr xs) => xs.length
  | _ => 0

/-- Renovate configuration file candidates, in the fixed priority order the
assessor probes them. -/
def renovateFileCandidates : List String :=
  [ "renovate.json", "renovate.json5", ".renovaterc", ".renovaterc.json",
    ".github/renovate.json", ".github/renovate.json5" ]

/-- The first Renovate configuration file present, if any. -/
def findRenovateFile (repo : Repository) : Option String :=
  renovateFileCandidates.find? (fun f => repo.path_exists f)

/-- The `renovate` key of a parsed `package.json`, if the manifest parses. -/
def packageJsonRenovate (repo : Repository) : Option JVal :=
  match repo.parse_json "package.json" with
  | .ok v => v.lookup "renovate"
  | .error _ => none

/-- A parsed Renovate file is meaningful when it has a non-empty `extends`
or `packageRules` list (not just schema/meta keys). -/
def meaningfulRenovate (v : JVal) : Bool :=
  (match v.lookup "extends" with
   | some (.arr (_ :: _)) => true
   | _ => false) ||
  (match v.lookup "packageRules" with
   | some (.arr (_ :: _)) => true
   | _ => false)

/-- A `renovate` key embedded in `package.json` is meaningful when it is a
non-empty object. -/
def nonEmptyObj (v : JVal) : Bool :=
  match v with
  | .obj (_ :: _) => true
  | _ => false

/-- Modelled from the spec: the dependency-update bucket of
`DependencySecurityAssessor` (assessors/security.py is not among the
sources).  Per spec sections 4.2 and 4.3: Dependabot and Renovate are checked
in a fixed priority order and the first satisfied mechanism wins; the present
mechanism earns 30 base points plus a +5 bonus when parsing proves the
configuration meaningful; a file that exists but cannot be parsed still earns
the base credit but the bonus then falls back to a meaningful `renovate` key
inside `package.json`. -/
def depUpdateBucket (repo : Repository) : Bucket :=
  if repo.path_exists ".github/dependabot.yml" then
    let base : Bucket :=
      { points := 30, tools := ["Dependabot"]
        evidence := ["Dependabot configured (.github/dependabot.yml)"] }
    match repo.parse_yaml ".github/dependabot.yml" with
    | .ok v =>
      let n := countEcosystems v
      if 0 < n then
        { points := 35, tools := base.tools
          evidence := base.evidence ++
            [natStr n ++ " package ecosystem(s) monitored"] }
      else base
    | .error _ => base
  else
    match findRenovateFile repo with
    | some f =>
      let base : Bucket :=
        { points := 30, tools := ["Renovate"]
          evidence := ["Renovate configured (" ++ f ++ ")"] }
      match repo.parse_json f with
      | .ok v =>
        if meaningfulRenovate v then
          { points := 35, tools := base.tools
            evidence := base.evidence ++
              ["Meaningful Renovate configuration detected"] }
        else base
      | .error _ =>
        match packageJsonRenovate repo with
        | some rv =>
          if nonEmptyObj rv then
            { points := 35, tools := base.tools
              evidence := base.evidence ++
                ["Meaningful Renovate configuration detected"] }
          else base
        | none => base
    | none =>
      match packageJsonRenovate repo with
      | some rv =>
        let base : Bucket :=
          { points := 30, tools := ["Renovate"]
            evidence := ["Renovate configured in package.json"] }
        if nonEmptyObj rv then
          { points := 35, tools := base.tools
            evidence := base.evidence ++
              ["Meaningful Renovate configuration detected"] }
        else base
      | none => emptyBucket

/-- Modelled from the spec: the CodeQL bucket of `DependencySecurityAssessor`
(spec section 4.3): 25 points when a workflow file whose name mentions
`codeql` exists under `.github/workflows`. -/
def codeqlBucket (repo : Repository) : Bucket :=
  if (repo.list_dir ".github/workflows").any
      (fun f => listContainsSub (f.data.map Char.toLower) "codeql".data) then
    { points := 25, tools := ["CodeQL"], evidence := ["CodeQL workflow detected"] }
  else emptyBucket

/-- The text of a file, or the empty string when it is missing or unreadable. -/
def readTextOr (repo : Repository) (p : String) : String :=
  match repo.read_text p with
  | .ok s => s
  | .error _ => ""

/-- Modelled from the spec: the Python security-tool bucket of
`DependencySecurityAssessor` (spec section 4.3): pip-audit/safety (10 points)
and Bandit (10 points) detected by a text search over the Python manifests. -/
def pySecBucket (repo : Repository) : Bucket :=
  let text := readTextOr repo "pyproject.toml" ++ "\n" ++
    readTextOr repo "requirements.txt" ++ "\n" ++
    readTextOr repo "requirements-dev.txt"
  let low := text.data.map Char.toLower
  let b1 : Bucket :=
    if listContainsSub low "pip-audit".data then
      { points := 10, tools := ["pip-audit"]
        evidence := ["Python dependency audit tool configured (pip-audit)"] }
    else if listContainsSub low "safety".data then
      { points := 10, tools := ["safety"]
        evidence := ["Python dependency audit tool configured (safety)"] }
    else emptyBucket
  let b2 : Bucket :=
    if listContainsSub low "bandit".data then
      { points := 10, tools := ["Bandit"]
        evidence := ["Bandit static analysis configured"] }
    else emptyBucket
  addBucket b1 b2

/-- Modelled from the spec: the JavaScript security-tool bucket of
`DependencySecurityAssessor` (spec section 4.3): an npm/yarn audit script (10
points) and a Snyk dependency (10 points) found in a parsed `package.json`; a
malformed manifest is treated as "not found" silently. -/
def jsSecBucket (repo : Repository) : Bucket :=
  match repo.parse_json "package.json" with
  | .error _ => emptyBucket
  | .ok v =>
    let hasAudit :=
      match v.lookup "scripts" with
      | some (.obj ss) =>
        ss.any (fun kv =>
          match kv.2 with
          | .str s => listContainsSub (s.data.map Char.toLower) "audit".data
          | _ => false)
      | _ => false
    let hasSnyk :=
      (match v.lookup "devDependencies" with
       | some (.obj ds) => ds.any (fun kv => kv.1 = "snyk")
       | _ => false) ||
      (match v.lookup "dependencies" with
       | some (.obj ds) => ds.any (fun kv => kv.1 = "snyk")
       | _ => false)
    let b1 : Bucket :=
      if hasAudit then
        { points := 10, tools := ["npm/yarn audit"]
          evidence := ["npm/yarn audit script configured"] }
      else emptyBucket
    let b2 : Bucket :=
      if hasSnyk then
        { points := 10, tools := ["Snyk"]
          evidence := ["Snyk dependency detected"] }
      else emptyBucket
    addBucket b1 b2

/-- Modelled from the spec: the secret-scanning bucket of
`DependencySecurityAssessor` (spec section 4.3): 20 points when
`detect-secrets` is configured in the pre-commit configuration. -/
def secretBucket (repo : Repository) : Bucket :=
  match repo.read_text ".pre-commit-config.yaml" with
  | .error _ => emptyBucket
  | .ok s =>
    if listContainsSub s.data "detect-secrets".data then
      { points := 20, tools := ["detect-secrets"]
        evidence := ["Secret detection configured (detect-secrets)"] }
    else emptyBucket

/-- All independent point buckets of the dependency-security assessor,
in check order. -/
def securityBuckets (repo : Repository) : Bucket :=
  addBucket (depUpdateBucket repo)
    (addBucket (codeqlBucket repo)
      (addBucket (pySecBucket repo)
        (addBucket (jsSecBucket repo) (secretBucket repo))))

/-- Modelled from the spec: attribute descriptor of
`DependencySecurityAssessor`. -/
def dependencySecurityAttribute : Attribute :=
  { id := "dependency_security"
    name := "Dependency Security Scanning"
    category := "Security"
    tier := 1
    description := "Automated dependency update and security scanning configured"
    criteria := "Dependabot/Renovate, CodeQL, audit tooling or secret scanning present"
    default_weight := 1/10 }

/-- Modelled from the spec: remediation of `DependencySecurityAssessor`; it
offers both Dependabot and Renovate as alternative options. -/
def dependencySecurityRemediation : Remediation :=
  { summary := "Enable automated dependency security scanning"
    steps :=
      [ "Enable Dependabot by adding .github/dependabot.yml"
      , "Or configure Renovate by adding a renovate.json configuration"
      , "Add a CodeQL workflow under .github/workflows"
      , "Add secret scanning (detect-secrets) to the pre-commit configuration" ]
    tools := ["Dependabot", "Renovate", "CodeQL", "detect-secrets"]
    commands := ["mkdir -p .github"]
    examples :=
      [ "# renovate.json\nextends: config:base" ]
    citations := [] }

/-- Modelled from the spec: `DependencySecurityAssessor.assess`
(assessors/security.py is not among the sources).  Per spec section 4.3 the
independent buckets sum, a security policy document adds a +5 bonus on top of
any base credit, the pass threshold is 60, and with no sources found the
finding fails at 0 stating plainly that no scanning tools were found. -/
def bonusBucket (repo : Repository) : Bucket :=
  if repo.path_exists "SECURITY.md" && decide (0 < (securityBuckets repo).points) then
    { points := 5, tools := [], evidence := ["SECURITY.md security policy present"] }
  else emptyBucket

/-- All buckets of the dependency-security assessor, the security-policy
bonus included. -/
def totalBucket (repo : Repository) : Bucket :=
  addBucket (securityBuckets repo) (bonusBucket repo)

def dependencySecurity_assess (repo : Repository) : Finding :=
  { «attribute» := dependencySecurityAttribute
    status := if (60 : ℚ) ≤ (totalBucket repo).points then "pass" else "fail"
    score := (totalBucket repo).points
    measured_value :=
      if (totalBucket repo).tools = [] then "No security scanning tools found"
      else joinSep ", " (totalBucket repo).tools
    threshold := "security scanning configured (60 points)"
    evidence := (totalBucket repo).evidence
    remediation :=
      if ((if (60 : ℚ) ≤ (totalBucket repo).points then "pass" else "fail") : String) = "fail"
      then some dependencySecurityRemediation else none
    error_message := none }

/-- The fixed list of commitlint configuration filenames the
conventional-commits assessor probes. -/
def commitlintConfigFiles : List String :=
  [ ".commitlintrc", ".commitlintrc.json", ".commitlintrc.yaml",
    ".commitlintrc.yml", ".commitlintrc.js", ".commitlintrc.cjs",
    ".commitlintrc.ts", "commitlint.config.js", "commitlint.config.cjs",
    "commitlint.config.ts" ]

/-- Recognized conventional-commit hook ids inside a pre-commit
configuration. -/
def conventionalHookIds : List String :=
  [ "conventional-pre-commit", "conventional-precommit-linter", "commitizen",
    "commitlint" ]

/-- Modelled from the spec: whether the parsed pre-commit configuration
declares a recognized conventional-commit hook; a configuration that does not
parse degrades to "not found" rather than raising or falling back to
substring search (spec section 4.7). -/
def precommitHasConventionalHook (repo : Repository) : Bool :=
  match repo.parse_yaml ".pre-commit-config.yaml" with
  | .error _ => false
  | .ok v =>
    match v.lookup "repos" with
    | some (.arr rs) =>
      rs.any (fun r =>
        match r.lookup "hooks" with
        | some (.arr hs) =>
          hs.any (fun hk =>
            match hk.lookup "id" with
            | some (.str i) => conventionalHookIds.contains i
            | _ => false)
        | _ => false)
    | _ => false

/-- Modelled from the spec: attribute descriptor of
`ConventionalCommitsAssessor`. -/
def conventionalCommitsAttribute : Attribute :=
  { id := "conventional_commits"
    name := "Conventional Commit Messages"
    category := "Version Control"
    tier := 3
    description := "Commit messages follow the conventional-commits convention"
    criteria := "commitlint, husky or a conventional-commit pre-commit hook configured"
    default_weight := 3/100 }

/-- Modelled from the spec: remediation of `ConventionalCommitsAssessor`. -/
def conventionalCommitsRemediation : Remediation :=
  { summary := "Enforce conventional commit messages"
    steps :=
      [ "Add a commitlint configuration file"
      , "Or add a conventional-commit hook to the pre-commit configuration" ]
    tools := ["commitlint", "pre-commit"]
    commands := []
    examples := []
    citations := [] }

/-- Modelled from the spec: `ConventionalCommitsAssessor.assess` (its module
is not among the sources).  Per spec section 4.7: pass (100) if any of a fixed
list of commitlint config filenames, a `.husky` hooks directory, a
`commitlint` key inside a package manifest, or a recognized
conventional-commit hook inside the pre-commit configuration is found;
otherwise fail (0); malformed manifest or pre-commit YAML degrades to "not
found". -/
def conventionalCommitsFound (repo : Repository) : Bool :=
  commitlintConfigFiles.any (fun f => repo.path_exists f) ||
  repo.path_exists ".husky" ||
  (match repo.parse_json "package.json" with
   | .ok v => (v.lookup "commitlint").isSome
   | .error _ => false) ||
  precommitHasConventionalHook repo

def conventionalCommits_assess (repo : Repository) : Finding :=
  if conventionalCommitsFound repo then
    { «attribute» := conventionalCommitsAttribute
      status := "pass"
      score := 100
      measured_value := "conventional commit tooling configured"
      threshold := "conventional commit tooling present"
      evidence := ["Conventional commit tooling found"]
      remediation := none
      error_message := none }
  else
    { «attribute» := conventionalCommitsAttribute
      status := "fail"
      score := 0
      measured_value := "conventional commits not configured"
      threshold := "conventional commit tooling present"
      evidence := ["No conventional commit tooling found"]
      remediation := some conventionalCommitsRemediation
      error_message := none }

/-- The two checks of the standard-layout claim: `src/` present, and a test
directory (`tests/` or `test/`) present. -/
def foundStandardDirs (repo : Repository) : Nat :=
  (if repo.path_exists "src" then 1 else 0) +
  (if repo.path_exists "tests" || repo.path_exists "test" then 1 else 0)

/-- The four statuses a `Finding` may carry. -/
def validStatus (f : Finding) : Prop :=
  f.status = "pass" ∨ f.status = "fail" ∨ f.status = "error" ∨
    f.status = "not_applicable"

/-- The evidence strings every bucket other than the dependency-update one
can produce. -/
def fixedSecurityEvidence : List String :=
  [ "CodeQL workflow detected"
  , "Python dependency audit tool configured (pip-audit)"
  , "Python dependency audit tool configured (safety)"
  , "Bandit static analysis configured"
  , "npm/yarn audit script configured"
  , "Snyk dependency detected"
  , "Secret detection configured (detect-secrets)"
  , "SECURITY.md security policy present" ]

/-- A repository snapshot with nothing in it; the base for the concrete
repositories below. -/
def baseRepo : Repository :=
  { name := "test-repo", url := none, branch := "main", commit_hash := "abc123"
    languages := [("Python", 100)], total_files := 10, total_lines := 100
    path_exists := fun _ => false
    read_text := fun _ => Except.error "missing"
    parse_json := fun _ => Except.error "missing"
    parse_yaml := fun _ => Except.error "missing"
    list_dir := fun _ => [] }

/-- A repository with a readable README and a Makefile. -/
def repoWithReadme : Repository :=
  { baseRepo with
    path_exists := fun p => p = "README.md" || p = "Makefile"
    read_text := fun p =>
      if p = "README.md" then Except.ok "## Install\n\nmake setup\n"
      else Except.error "missing" }

/-- A repository whose README exists but cannot be read. -/
def repoReadmeUnreadable : Repository :=
  { baseRepo with
    path_exists := fun p => p = "README.md"
    read_text := fun _ => Except.error "Permission denied" }

/-- A repository with a Makefile but no README. -/
def repoMakefileNoReadme : Repository :=
  { baseRepo with path_exists := fun p => p = "Makefile" }

/-- A repository with both a Dependabot config and a Renovate config. -/
def repoDependabotAndRenovate : Repository :=
  { baseRepo with
    path_exists := fun p => p = ".github/dependabot.yml" || p = "renovate.json"
    parse_yaml := fun p =>
      if p = ".github/dependabot.yml" then
        Except.ok (JVal.obj [("version", JVal.num 2),
          ("updates", JVal.arr [JVal.obj [("package-ecosystem", JVal.str "pip")]])])
      else Except.error "missing"
    parse_json := fun p =>
      if p = "renovate.json" then
        Except.ok (JVal.obj [("extends", JVal.arr [JVal.str "config:base"])])
      else Except.error "missing" }

/-- A repository whose only mechanism is a schema-only Renovate file. -/
def repoRenovateMinimal : Repository :=
  { baseRepo with
    path_exists := fun p => p = "renovate.json"
    parse_json := fun p =>
      if p = "renovate.json" then
        Except.ok (JVal.obj
          [("$schema", JVal.str "https://docs.renovatebot.com/renovate-schema.json"),
           ("timezone", JVal.str "America/New_York")])
      else Except.error "missing" }

/-- A repository whose only mechanism is a Renovate file with a non-trivial
`extends` key. -/
def repoRenovateMeaningful : Repository :=
  { baseRepo with
    path_exists := fun p => p = "renovate.json"
    parse_json := fun p =>
      if p = "renovate.json" then
        Except.ok (JVal.obj [("extends", JVal.arr [JVal.str "config:base"]),
          ("schedule", JVal.str "after 10pm every weekday")])
      else Except.error "missing" }

/-- A repository with an unparsable `renovate.json5` and a meaningful
`renovate` key inside `package.json`. -/
def repoRenovateJson5Fallback : Repository :=
  { baseRepo with
    path_exists := fun p => p = "renovate.json5" || p = "package.json"
    parse_json := fun p =>
      if p = "package.json" then
        Except.ok (JVal.obj [("name", JVal.str "test-project"),
          ("renovate", JVal.obj [("schedule", JVal.str "after 10pm every weekday")])])
      else Except.error "comments and trailing commas are not valid JSON" }

/-- A repository whose candidate configs are malformed: `package.json` is
invalid JSON and the pre-commit configuration is invalid YAML, while a
Dependabot config file is present (its YAML also malformed). -/
def repoMalformedConfigs : Repository :=
  { baseRepo with
    path_exists := fun p =>
      p = ".github/dependabot.yml" || p = "package.json" ||
        p = ".pre-commit-config.yaml"
    parse_json := fun _ =>
      Except.error "Expecting property name enclosed in double quotes"
    parse_yaml := fun _ =>
      Except.error "could not determine a constructor for the tag" }

theorem isPrefixOf_subset {pat s : List Char} (h : pat.isPrefixOf s = true) :
    ∀ c ∈ pat, c ∈ s := by
  induction pat generalizing s with
  | nil => intro c hc; simp at hc
  | cons p ps ih =>
    cases s with
    | nil => simp [List.isPrefixOf] at h
    | cons a as =>
      simp only [List.isPrefixOf, Bool.and_eq_true, beq_iff_eq] at h
      intro c hc
      rcases List.mem_cons.mp hc with rfl | hc
      · simp [h.1]
      · exact List.mem_cons_of_mem _ (ih h.2 c hc)

theorem isPrefixOf_append {pat s : List Char} (t : List Char)
    (h : pat.isPrefixOf s = true) : pat.isPrefixOf (s ++ t) = true := by
  induction pat generalizing s with
  | nil => simp [List.isPrefixOf]
  | cons p ps ih =>
    cases s with
    | nil => simp [List.isPrefixOf] at h
    | cons a as =>
      simp only [List.isPrefixOf, Bool.and_eq_true, beq_iff_eq] at h
      simp only [List.cons_append, List.isPrefixOf, Bool.and_eq_true, beq_iff_eq]
      exact ⟨h.1, ih h.2⟩

theorem listContainsSub_subset {s pat : List Char} (h : listContainsSub s pat = true) :
    ∀ c ∈ pat, c ∈ s := by
  induction s with
  | nil =>
    rw [listContainsSub] at h
    simp only [Bool.or_false] at h
    intro c hc
    cases pat with
    | nil => simp at hc
    | cons p ps => simp [List.isPrefixOf] at h
  | cons a as ih =>
    rw [listContainsSub.eq_def, Bool.or_eq_true] at h
    rcases h with h1 | h1
    · exact isPrefixOf_subset h1
    · exact fun c hc => List.mem_cons_of_mem _ (ih h1 c hc)

theorem not_listContainsSub {s pat : List Char} {c : Char}
    (hc : c ∈ pat) (hs : c ∉ s) : listContainsSub s pat = false := by
  cases h : listContainsSub s pat with
  | false => rfl
  | true => exact absurd (listContainsSub_subset h c hc) hs

theorem listContainsSub_of_isPrefixOf {s pat : List Char}
    (h : pat.isPrefixOf s = true) : listContainsSub s pat = true := by
  rw [listContainsSub.eq_def, h, Bool.true_or]

theorem listContainsSub_append_right {s pat : List Char} (t : List Char)
    (h : listContainsSub s pat = true) : listContainsSub (t ++ s) pat = true := by
  induction t with
  | nil => simpa using h
  | cons a ts ih =>
    rw [List.cons_append, listContainsSub.eq_def]
    dsimp only
    rw [ih, Bool.or_true]

theorem listContainsSub_append_left {s pat : List Char} (t : List Char)
    (h : listContainsSub s pat = true) : listContainsSub (s ++ t) pat = true := by
  induction s with
  | nil =>
    rw [listContainsSub.eq_def] at h
    simp only [Bool.or_false] at h
    cases pat with
    | nil =>
      rw [listContainsSub.eq_def]
      simp [List.isPrefixOf]
    | cons p ps => simp [List.isPrefixOf] at h
  | cons a as ih =>
    rw [listContainsSub.eq_def, Bool.or_eq_true] at h
    rw [List.cons_append, listContainsSub.eq_def]
    dsimp only
    rw [Bool.or_eq_true]
    rcases h with h1 | h1
    · exact Or.inl (isPrefixOf_append t h1)
    · exact Or.inr (ih h1)

theorem strContains_append_right {s pat : String} (t : String)
    (h : strContains s pat = true) : strContains (t ++ s) pat = true := by
  rw [strContains, String.data_append]
  exact listContainsSub_append_right _ h

theorem strContains_append_left {s pat : String} (t : String)
    (h : strContains s pat = true) : strContains (s ++ t) pat = true := by
  rw [strContains, String.data_append]
  exact listContainsSub_append_left _ h

theorem digitCharOf_mem_digits (k : Nat) : digitCharOf k ∈ ("0123456789").data := by
  unfold digitCharOf
  repeat first | split | decide

theorem natDigitsAux_mem_digits :
    ∀ fuel n : Nat, ∀ c ∈ natDigitsAux fuel n, c ∈ ("0123456789").data := by
  intro fuel
  induction fuel with
  | zero =>
    intro n c hc
    rw [natDigitsAux, List.mem_singleton] at hc
    subst hc
    exact digitCharOf_mem_digits n
  | succ fuel ih =>
    intro n c hc
    rw [natDigitsAux] at hc
    split at hc
    · rw [List.mem_singleton] at hc
      subst hc
      exact digitCharOf_mem_digits n
    · rcases List.mem_append.mp hc with hc | hc
      · exact ih (n / 10) c hc
      · rw [List.mem_singleton] at hc
        subst hc
        exact digitCharOf_mem_digits _

theorem natDigits_mem_digits : ∀ n : Nat, ∀ c ∈ natDigits n, c ∈ ("0123456789").data :=
  fun n => natDigitsAux_mem_digits n n

theorem not_mem_natDigits {c : Char} (hc : c ∉ ("0123456789").data) (n : Nat) :
    c ∉ natDigits n := fun h => hc (natDigits_mem_digits n c h)

theorem not_mem_joinSep {c : Char} {sep : String} {l : List String}
    (hsep : c ∉ sep.data) (hl : ∀ t ∈ l, c ∉ t.data) :
    c ∉ (joinSep sep l).data := by
  induction l with
  | nil => simp [joinSep]
  | cons x xs ih =>
    cases xs with
    | nil =>
      rw [joinSep]
      exact hl x (List.mem_cons_self x [])
    | cons y ys =>
      rw [joinSep, String.data_append, String.data_append]
      intro hmem
      rcases List.mem_append.mp hmem with hm | hm
      · rcases List.mem_append.mp hm with hm | hm
        · exact hl x (by simp) hm
        · exact hsep hm
      · exact ih (fun t ht => hl t (List.mem_cons_of_mem _ ht)) hm

theorem mem_addBucket_tools {t : String} {a b : Bucket} :
    t ∈ (addBucket a b).tools ↔ t ∈ a.tools ∨ t ∈ b.tools := by
  simp [addBucket]

theorem mem_addBucket_evidence {e : String} {a b : Bucket} :
    e ∈ (addBucket a b).evidence ↔ e ∈ a.evidence ∨ e ∈ b.evidence := by
  simp [addBucket]

theorem addBucket_points {a b : Bucket} :
    (addBucket a b).points = a.points + b.points := rfl

theorem codeqlBucket_tools_subset (repo : Repository) :
    ∀ t ∈ (codeqlBucket repo).tools, t = "CodeQL" := by
  unfold codeqlBucket
  split <;> simp [emptyBucket]

theorem codeqlBucket_evidence_subset (repo : Repository) :
    ∀ e ∈ (codeqlBucket repo).evidence, e = "CodeQL workflow detected" := by
  unfold codeqlBucket
  split <;> simp [emptyBucket]

theorem codeqlBucket_points_nonneg (repo : Repository) :
    0 ≤ (codeqlBucket repo).points := by
  unfold codeqlBucket
  split <;> norm_num [emptyBucket]

theorem pySecBucket_tools_subset (repo : Repository) :
    ∀ t ∈ (pySecBucket repo).tools, t ∈ (["pip-audit", "safety", "Bandit"] : List String) := by
  intro t ht
  unfold pySecBucket at ht
  rw [mem_addBucket_tools] at ht
  rcases ht with ht | ht <;> repeat' split at ht
  all_goals simp_all [emptyBucket]

theorem pySecBucket_evidence_subset (repo : Repository) :
    ∀ e ∈ (pySecBucket repo).evidence,
      e ∈ ([ "Python dependency audit tool configured (pip-audit)"
           , "Python dependency audit tool configured (safety)"
           , "Bandit static analysis configured" ] : List String) := by
  intro e he
  unfold pySecBucket at he
  rw [mem_addBucket_evidence] at he
  rcases he with he | he <;> repeat' split at he
  all_goals simp_all [emptyBucket]

theorem pySecBucket_points_nonneg (repo : Repository) :
    0 ≤ (pySecBucket repo).points := by
  unfold pySecBucket
  rw [addBucket_points]
  apply add_nonneg
  all_goals repeat' split
  all_goals norm_num [emptyBucket]

theorem jsSecBucket_tools_subset (repo : Repository) :
    ∀ t ∈ (jsSecBucket repo).tools, t ∈ (["npm/yarn audit", "Snyk"] : List String) := by
  intro t ht
  unfold jsSecBucket at ht
  split at ht
  · simp [emptyBucket] at ht
  · rw [mem_addBucket_tools] at ht
    rcases ht with ht | ht <;> split at ht <;> simp_all [emptyBucket]

theorem jsSecBucket_evidence_subset (repo : Repository) :
    ∀ e ∈ (jsSecBucket repo).evidence,
      e ∈ ([ "npm/yarn audit script configured"
           , "Snyk dependency detected" ] : List String) := by
  intro e he
  unfold jsSecBucket at he
  split at he
  · simp [emptyBucket] at he
  · rw [mem_addBucket_evidence] at he
    rcases he with he | he <;> split at he <;> simp_all [emptyBucket]

theorem jsSecBucket_points_nonneg (repo : Repository) :
    0 ≤ (jsSecBucket repo).points := by
  unfold jsSecBucket
  split
  · norm_num [emptyBucket]
  · rw [addBucket_points]
    apply add_nonneg
    all_goals split <;> norm_num [emptyBucket]

theorem secretBucket_tools_subset (repo : Repository) :
    ∀ t ∈ (secretBucket repo).tools, t = "detect-secrets" := by
  intro t ht
  unfold secretBucket at ht
  repeat' split at ht
  all_goals simp_all [emptyBucket]

theorem secretBucket_evidence_subset (repo : Repository) :
    ∀ e ∈ (secretBucket repo).evidence,
      e = "Secret detection configured (detect-secrets)" := by
  intro e he
  unfold secretBucket at he
  repeat' split at he
  all_goals simp_all [emptyBucket]

theorem secretBucket_points_nonneg (repo : Repository) :
    0 ≤ (secretBucket repo).points := by
  unfold secretBucket
  repeat' split
  all_goals norm_num [emptyBucket]

theorem bonusBucket_tools (repo : Repository) : (bonusBucket repo).tools = [] := by
  unfold bonusBucket
  split <;> rfl

theorem bonusBucket_evidence_subset (repo : Repository) :
    ∀ e ∈ (bonusBucket repo).evidence,
      e = "SECURITY.md security policy present" := by
  unfold bonusBucket
  split <;> simp [emptyBucket]

theorem bonusBucket_points_nonneg (repo : Repository) :
    0 ≤ (bonusBucket repo).points := by
  unfold bonusBucket
  split <;> norm_num [emptyBucket]

theorem depUpdateBucket_dependabot {repo : Repository}
    (hD : repo.path_exists ".github/dependabot.yml" = true) :
    (depUpdateBucket repo).tools = ["Dependabot"] ∧
    (30 : ℚ) ≤ (depUpdateBucket repo).points ∧
    (∃ rest, (depUpdateBucket repo).evidence =
      "Dependabot configured (.github/dependabot.yml)" :: rest) ∧
    ∀ e ∈ (depUpdateBucket repo).evidence,
      e = "Dependabot configured (.github/dependabot.yml)" ∨
      ∃ n : Nat, e = natStr n ++ " package ecosystem(s) monitored" := by
  unfold depUpdateBucket
  rw [if_pos hD]
  dsimp only
  split
  · rename_i v hv
    split
    · refine ⟨rfl, by norm_num, ⟨_, rfl⟩, ?_⟩
      intro e he
      rcases List.mem_cons.mp he with rfl | he
      · exact Or.inl rfl
      · rcases List.mem_singleton.mp he with rfl
        exact Or.inr ⟨_, rfl⟩
    · refine ⟨rfl, by norm_num, ⟨_, rfl⟩, ?_⟩
      intro e he
      rcases List.mem_singleton.mp he with rfl
      exact Or.inl rfl
  · refine ⟨rfl, by norm_num, ⟨_, rfl⟩, ?_⟩
    intro e he
    rcases List.mem_singleton.mp he with rfl
    exact Or.inl rfl

theorem pass_iff_ge (c S : ℚ) :
    ((if c ≤ S then "pass" else "fail") = "pass") ↔ c ≤ S := by
  split
  · rename_i h
    exact iff_of_true rfl h
  · rename_i h
    exact iff_of_false (by decide) h

/-- C1: `calculate_proportional_score` returns 100 whenever the threshold is
zero (with `higher_is_better = true` in particular), every result lies in
[0, 100], and for a non-zero threshold with `higher_is_better = true` the
score is clamp(measured/threshold * 100, 0, 100). -/
theorem calc_proportional_score_spec :
    (∀ m : ℚ, calculate_proportional_score m 0 true = 100) ∧
    (∀ (m t : ℚ) (b : Bool),
      0 ≤ calculate_proportional_score m t b ∧
        calculate_proportional_score m t b ≤ 100) ∧
    (∀ m t : ℚ, t ≠ 0 →
      calculate_proportional_score m t true = min 100 (max 0 (m / t * 100))) := by
  refine ⟨?_, ?_, ?_⟩
  · intro m
    unfold calculate_proportional_score
    rw [if_pos rfl]
  · intro m t b
    unfold calculate_proportional_score
    split
    · norm_num
    · split
      · exact ⟨le_min (by norm_num) (le_max_left 0 _), min_le_left _ _⟩
      · split
        · norm_num
        · exact ⟨le_min (by norm_num) (le_max_left 0 _), min_le_left _ _⟩
  · intro m t ht
    unfold calculate_proportional_score
    rw [if_neg ht, if_pos rfl]

/-- Witness for C1 at concrete inputs. -/
theorem calc_proportional_score_spec_witness :
    calculate_proportional_score 0 0 true = 100 ∧
    (0 ≤ calculate_proportional_score 7 2 true ∧
      calculate_proportional_score 7 2 true ≤ 100) ∧
    ((2 : ℚ) ≠ 0 ∧
      calculate_proportional_score 1 2 true = min 100 (max 0 ((1 : ℚ) / 2 * 100))) :=
  ⟨calc_proportional_score_spec.1 0,
   calc_proportional_score_spec.2.1 7 2 true,
   by norm_num,
   calc_proportional_score_spec.2.2 1 2 (by norm_num)⟩

/-- C2: `StandardLayoutAssessor.assess` scores the proportional score over the
two directory checks (`src/` present; `tests/` or `test/` present), passes
exactly when the score is at least 75, and on a repository with neither
directory fails with measured value `0/2 directories`. -/
theorem standardLayout_spec (repo : Repository) :
    (standardLayout_assess repo).score =
      calculate_proportional_score (foundStandardDirs repo : ℚ) 2 true ∧
    ((standardLayout_assess repo).status = "pass" ↔
      (75 : ℚ) ≤ (standardLayout_assess repo).score) ∧
    (repo.path_exists "src" = false → repo.path_exists "tests" = false →
      repo.path_exists "test" = false →
      (standardLayout_assess repo).status = "fail" ∧
      (standardLayout_assess repo).measured_value = "0/2 directories") := by
  have hfd : standardLayout_found_dirs repo = foundStandardDirs repo := by
    unfold standardLayout_found_dirs foundStandardDirs
    by_cases h : repo.path_exists "tests" = true
    · simp [h]
    · simp only [Bool.not_eq_true] at h
      simp [h]
  refine ⟨?_, ?_, ?_⟩
  · show standardLayout_score repo = _
    unfold standardLayout_score
    rw [hfd]
    norm_num
  · show standardLayout_status repo = "pass" ↔ (75 : ℚ) ≤ standardLayout_score repo
    unfold standardLayout_status
    exact pass_iff_ge 75 _
  · intro h1 h2 h3
    have h0 : standardLayout_found_dirs repo = 0 := by
      unfold standardLayout_found_dirs
      simp [h1, h2, h3]
    constructor
    · show standardLayout_status repo = "fail"
      unfold standardLayout_status standardLayout_score
      rw [h0]
      norm_num [calculate_proportional_score]
    · show natStr (standardLayout_found_dirs repo) ++ "/" ++ natStr 2 ++ " directories" = "0/2 directories"
      rw [h0]
      decide

/-- Witness for C2 at a repository containing neither directory. -/
theorem standardLayout_spec_witness :
    (standardLayout_assess baseRepo).score =
      calculate_proportional_score (foundStandardDirs baseRepo : ℚ) 2 true ∧
    ((standardLayout_assess baseRepo).status = "pass" ↔
      (75 : ℚ) ≤ (standardLayout_assess baseRepo).score) ∧
    ((standardLayout_assess baseRepo).status = "fail" ∧
      (standardLayout_assess baseRepo).measured_value = "0/2 directories") :=
  ⟨(standardLayout_spec baseRepo).1, (standardLayout_spec baseRepo).2.1,
   (standardLayout_spec baseRepo).2.2 rfl rfl rfl⟩

/-- C3: for a repository with a readable README, `OneCommandSetupAssessor`
scores the sum of three buckets — 40 for a setup command found in the README,
30 for a setup automation file, 30 for setup instructions in a prominent
location — and passes exactly when the score is at least 75. -/
theorem oneCommand_composition (repo : Repository) (content : String)
    (hEx : repo.path_exists "README.md" = true)
    (hRead : repo.read_text "README.md" = Except.ok content) :
    (oneCommandSetup_assess repo).score =
      (if find_setup_command content repo.languages ≠ "" then 40 else 0) +
      (if check_setup_files repo ≠ [] then 30 else 0) +
      (if is_setup_prominent content then 30 else 0) ∧
    ((oneCommandSetup_assess repo).status = "pass" ↔
      (75 : ℚ) ≤ (oneCommandSetup_assess repo).score) := by
  unfold oneCommandSetup_assess
  rw [hEx, hRead]
  rw [if_neg (by simp)]
  dsimp only
  exact ⟨rfl, pass_iff_ge 75 _⟩

/-- Witness for C3: a repository whose README documents `make setup` under an
Install heading and which has a Makefile scores 40 + 30 + 30. -/
theorem oneCommand_composition_witness :
    repoWithReadme.path_exists "README.md" = true ∧
    repoWithReadme.read_text "README.md" = Except.ok "## Install\n\nmake setup\n" ∧
    ((oneCommandSetup_assess repoWithReadme).score =
      (if find_setup_command "## Install\n\nmake setup\n" repoWithReadme.languages ≠ "" then 40 else 0) +
      (if check_setup_files repoWithReadme ≠ [] then 30 else 0) +
      (if is_setup_prominent "## Install\n\nmake setup\n" then 30 else 0) ∧
     ((oneCommandSetup_assess repoWithReadme).status = "pass" ↔
       (75 : ℚ) ≤ (oneCommandSetup_assess repoWithReadme).score)) :=
  ⟨rfl, rfl, oneCommand_composition repoWithReadme "## Install\n\nmake setup\n" rfl rfl⟩

/-- C8: when the README exists but reading it raises, the one-command-setup
finding has status error, score 0 and the exception text as error message. -/
theorem oneCommand_readme_error (repo : Repository) (e : String)
    (hEx : repo.path_exists "README.md" = true)
    (hRead : repo.read_text "README.md" = Except.error e) :
    (oneCommandSetup_assess repo).status = "error" ∧
    (oneCommandSetup_assess repo).score = 0 ∧
    (oneCommandSetup_assess repo).error_message = some e := by
  unfold oneCommandSetup_assess
  rw [hEx, hRead]
  exact ⟨rfl, rfl, rfl⟩

/-- Witness for C8 at a repository whose README read raises a permission
error. -/
theorem oneCommand_readme_error_witness :
    repoReadmeUnreadable.path_exists "README.md" = true ∧
    ((oneCommandSetup_assess repoReadmeUnreadable).status = "error" ∧
     (oneCommandSetup_assess repoReadmeUnreadable).score = 0 ∧
     (oneCommandSetup_assess repoReadmeUnreadable).error_message =
       some "Permission denied") :=
  ⟨rfl, oneCommand_readme_error repoReadmeUnreadable "Permission denied" rfl rfl⟩

theorem isSome_ite_iff {α : Type} (c : Prop) [Decidable c] (r : α) :
    ((if c then some r else none).isSome = true) ↔ c := by
  split
  · rename_i h
    exact iff_of_true rfl h
  · rename_i h
    exact iff_of_false (by simp) h

theorem passfail_ne (c S : ℚ) (x : String) (h1 : "pass" ≠ x) (h2 : "fail" ≠ x) :
    (if c ≤ S then "pass" else "fail") ≠ x := by
  split
  · exact h1
  · exact h2

/-- C9: in every finding either structure assessor returns, the remediation
is present exactly when the status is fail, and the error message is present
exactly when the status is error. -/
theorem finding_field_invariants (repo : Repository) :
    (((standardLayout_assess repo).remediation.isSome = true ↔
        (standardLayout_assess repo).status = "fail") ∧
     ((standardLayout_assess repo).error_message.isSome = true ↔
        (standardLayout_assess repo).status = "error")) ∧
    (((oneCommandSetup_assess repo).remediation.isSome = true ↔
        (oneCommandSetup_assess repo).status = "fail") ∧
     ((oneCommandSetup_assess repo).error_message.isSome = true ↔
        (oneCommandSetup_assess repo).status = "error")) := by
  refine ⟨⟨?_, ?_⟩, ?_⟩
  · exact isSome_ite_iff _ _
  · show (none : Option String).isSome = true ↔ standardLayout_status repo = "error"
    refine iff_of_false (by simp) ?_
    unfold standardLayout_status
    exact passfail_ne _ _ _ (by decide) (by decide)
  · unfold oneCommandSetup_assess
    split
    · unfold Finding.not_applicable
      exact ⟨iff_of_false (by decide) (by decide), iff_of_false (by decide) (by decide)⟩
    · cases hr : repo.read_text "README.md" with
      | error e =>
        dsimp only
        exact ⟨iff_of_false (by decide) (by decide), iff_of_true rfl rfl⟩
      | ok content =>
        dsimp only
        refine ⟨isSome_ite_iff _ _, ?_⟩
        refine iff_of_false (by simp) ?_
        exact passfail_ne _ _ _ (by decide) (by decide)

/-- C10: without a README at the repository root, the one-command-setup
assessor returns the not-applicable finding, regardless of any setup
automation files present. -/
theorem oneCommand_no_readme (repo : Repository)
    (hEx : repo.path_exists "README.md" = false) :
    (oneCommandSetup_assess repo).status = "not_applicable" ∧
    oneCommandSetup_assess repo =
      Finding.not_applicable oneCommandSetupAttribute
        "No README found, cannot assess setup documentation" := by
  unfold oneCommandSetup_assess
  rw [hEx]
  exact ⟨rfl, rfl⟩

/-- Witness for C10 at a repository that has a Makefile but no README. -/
theorem oneCommand_no_readme_witness :
    repoMakefileNoReadme.path_exists "README.md" = false ∧
    repoMakefileNoReadme.path_exists "Makefile" = true ∧
    ((oneCommandSetup_assess repoMakefileNoReadme).status = "not_applicable" ∧
     oneCommandSetup_assess repoMakefileNoReadme =
       Finding.not_applicable oneCommandSetupAttribute
         "No README found, cannot assess setup documentation") :=
  ⟨rfl, rfl, oneCommand_no_readme repoMakefileNoReadme rfl⟩

theorem strContains_joinSep_head {sep x pat : String} {xs : List String}
    (h : strContains x pat = true) :
    strContains (joinSep sep (x :: xs)) pat = true := by
  cases xs with
  | nil => exact h
  | cons y ys =>
    rw [joinSep]
    exact strContains_append_left _ (strContains_append_left _ h)

theorem findRenovateFile_mem {repo : Repository} {f : String}
    (h : findRenovateFile repo = some f) : f ∈ renovateFileCandidates :=
  List.mem_of_find?_eq_some h

theorem packageJsonRenovate_error {repo : Repository} {msg : String}
    (h : repo.parse_json "package.json" = Except.error msg) :
    packageJsonRenovate repo = none := by
  unfold packageJsonRenovate
  rw [h]

theorem depUpdateBucket_renovate_ok {repo : Repository} {f : String} {v : JVal}
    (hD : repo.path_exists ".github/dependabot.yml" = false)
    (hF : findRenovateFile repo = some f)
    (hP : repo.parse_json f = Except.ok v) :
    depUpdateBucket repo =
      (if meaningfulRenovate v then
        { points := 35, tools := ["Renovate"]
          evidence := ["Renovate configured (" ++ f ++ ")",
            "Meaningful Renovate configuration detected"] }
       else
        { points := 30, tools := ["Renovate"]
          evidence := ["Renovate configured (" ++ f ++ ")"] } : Bucket) := by
  unfold depUpdateBucket
  rw [if_neg (by simp [hD]), hF]
  dsimp only
  rw [hP]
  dsimp only
  split <;> rfl

theorem depUpdateBucket_renovate_err_fallback {repo : Repository}
    {f msg : String} {rv : JVal}
    (hD : repo.path_exists ".github/dependabot.yml" = false)
    (hF : findRenovateFile repo = some f)
    (hP : repo.parse_json f = Except.error msg)
    (hPkg : packageJsonRenovate repo = some rv) :
    depUpdateBucket repo =
      (if nonEmptyObj rv then
        { points := 35, tools := ["Renovate"]
          evidence := ["Renovate configured (" ++ f ++ ")",
            "Meaningful Renovate configuration detected"] }
       else
        { points := 30, tools := ["Renovate"]
          evidence := ["Renovate configured (" ++ f ++ ")"] } : Bucket) := by
  unfold depUpdateBucket
  rw [if_neg (by simp [hD]), hF]
  dsimp only
  rw [hP]
  dsimp only
  rw [hPkg]
  dsimp only
  split <;> rfl

theorem depUpdateBucket_empty {repo : Repository}
    (hD : repo.path_exists ".github/dependabot.yml" = false)
    (hF : findRenovateFile repo = none)
    (hPkg : packageJsonRenovate repo = none) :
    depUpdateBucket repo = emptyBucket := by
  unfold depUpdateBucket
  rw [if_neg (by simp [hD]), hF]
  dsimp only
  rw [hPkg]

theorem totalBucket_only_dep {repo : Repository}
    (hCode : codeqlBucket repo = emptyBucket)
    (hPy : pySecBucket repo = emptyBucket)
    (hJs : jsSecBucket repo = emptyBucket)
    (hSec : secretBucket repo = emptyBucket)
    (hPol : repo.path_exists "SECURITY.md" = false) :
    (totalBucket repo).points = (depUpdateBucket repo).points ∧
    (totalBucket repo).evidence = (depUpdateBucket repo).evidence ∧
    (totalBucket repo).tools = (depUpdateBucket repo).tools := by
  have hBonus : bonusBucket repo = emptyBucket := by
    unfold bonusBucket
    rw [hPol]
    rfl
  unfold totalBucket securityBuckets
  rw [hCode, hPy, hJs, hSec, hBonus]
  refine ⟨?_, ?_, ?_⟩ <;> simp [addBucket, emptyBucket]

theorem totalBucket_tools_structure (repo : Repository) :
    ∀ t ∈ (totalBucket repo).tools,
      t ∈ (depUpdateBucket repo).tools ∨
      t ∈ (["CodeQL", "pip-audit", "safety", "Bandit", "npm/yarn audit", "Snyk",
            "detect-secrets"] : List String) := by
  intro t ht
  unfold totalBucket securityBuckets at ht
  simp only [mem_addBucket_tools] at ht
  rcases ht with (ht | ht | ht | ht | ht) | ht
  · exact Or.inl ht
  · have hx := codeqlBucket_tools_subset repo t ht
    subst hx
    right
    simp
  · have hx := pySecBucket_tools_subset repo t ht
    right
    simp only [List.mem_cons, List.not_mem_nil, or_false] at hx ⊢
    tauto
  · have hx := jsSecBucket_tools_subset repo t ht
    right
    simp only [List.mem_cons, List.not_mem_nil, or_false] at hx ⊢
    tauto
  · have hx := secretBucket_tools_subset repo t ht
    subst hx
    right
    simp
  · rw [bonusBucket_tools] at ht
    cases ht

theorem totalBucket_evidence_structure (repo : Repository) :
    ∀ e ∈ (totalBucket repo).evidence,
      e ∈ (depUpdateBucket repo).evidence ∨ e ∈ fixedSecurityEvidence := by
  intro e he
  unfold totalBucket securityBuckets at he
  simp only [mem_addBucket_evidence] at he
  rcases he with (he | he | he | he | he) | he
  · exact Or.inl he
  · have hx := codeqlBucket_evidence_subset repo e he
    subst hx
    right
    simp [fixedSecurityEvidence]
  · have hx := pySecBucket_evidence_subset repo e he
    right
    simp only [fixedSecurityEvidence, List.mem_cons, List.not_mem_nil, or_false] at hx ⊢
    tauto
  · have hx := jsSecBucket_evidence_subset repo e he
    right
    simp only [fixedSecurityEvidence, List.mem_cons, List.not_mem_nil, or_false] at hx ⊢
    tauto
  · have hx := secretBucket_evidence_subset repo e he
    subst hx
    right
    simp [fixedSecurityEvidence]
  · have hx := bonusBucket_evidence_subset repo e he
    subst hx
    right
    simp [fixedSecurityEvidence]

theorem totalBucket_points_ge_dep (repo : Repository) :
    (depUpdateBucket repo).points ≤ (totalBucket repo).points := by
  unfold totalBucket securityBuckets
  simp only [addBucket_points]
  have h1 := codeqlBucket_points_nonneg repo
  have h2 := pySecBucket_points_nonneg repo
  have h3 := jsSecBucket_points_nonneg repo
  have h4 := secretBucket_points_nonneg repo
  have h5 := bonusBucket_points_nonneg repo
  linarith

theorem depsec_measured_def (repo : Repository) :
    (dependencySecurity_assess repo).measured_value =
      if (totalBucket repo).tools = [] then "No security scanning tools found"
      else joinSep ", " (totalBucket repo).tools := rfl

theorem depsec_evidence_def (repo : Repository) :
    (dependencySecurity_assess repo).evidence = (totalBucket repo).evidence := rfl

theorem depsec_score_def (repo : Repository) :
    (dependencySecurity_assess repo).score = (totalBucket repo).points := rfl

theorem depsec_measured_noRenovate {repo : Repository}
    (h : ∀ t ∈ (depUpdateBucket repo).tools, 'R' ∉ t.data) :
    strContains (dependencySecurity_assess repo).measured_value "Renovate" = false := by
  rw [depsec_measured_def]
  split
  · decide
  · unfold strContains
    apply not_listContainsSub (c := 'R') (by decide)
    apply not_mem_joinSep (by decide)
    intro t ht
    rcases totalBucket_tools_structure repo t ht with hd | hfix
    · exact h t hd
    · simp only [List.mem_cons, List.not_mem_nil, or_false] at hfix
      rcases hfix with rfl | rfl | rfl | rfl | rfl | rfl | rfl <;> decide

theorem depsec_evidence_noRenovate {repo : Repository}
    (h : ∀ e ∈ (depUpdateBucket repo).evidence, strContains e "Renovate" = false) :
    ∀ e ∈ (dependencySecurity_assess repo).evidence,
      strContains e "Renovate" = false := by
  rw [depsec_evidence_def]
  intro e he
  rcases totalBucket_evidence_structure repo e he with hd | hfix
  · exact h e hd
  · simp only [fixedSecurityEvidence, List.mem_cons, List.not_mem_nil, or_false] at hfix
    rcases hfix with rfl | rfl | rfl | rfl | rfl | rfl | rfl | rfl <;> decide

theorem depUpdate_dependabot_evidence_noRenovate {repo : Repository}
    (hD : repo.path_exists ".github/dependabot.yml" = true) :
    ∀ e ∈ (depUpdateBucket repo).evidence, strContains e "Renovate" = false := by
  intro e he
  rcases (depUpdateBucket_dependabot hD).2.2.2 e he with rfl | ⟨n, rfl⟩
  · decide
  · unfold strContains
    apply not_listContainsSub (c := 'R') (by decide)
    rw [String.data_append]
    intro hmem
    rcases List.mem_append.mp hmem with hm | hm
    · exact not_mem_natDigits (by decide) n hm
    · revert hm
      decide

theorem depsec_measured_dependabot {repo : Repository}
    (hD : repo.path_exists ".github/dependabot.yml" = true) :
    strContains (dependencySecurity_assess repo).measured_value "Dependabot" = true := by
  obtain ⟨hTools, hPts, hHead, hEvAll⟩ := depUpdateBucket_dependabot hD
  have hts : (totalBucket repo).tools =
      "Dependabot" ::
        (((codeqlBucket repo).tools ++ ((pySecBucket repo).tools ++
          ((jsSecBucket repo).tools ++ (secretBucket repo).tools))) ++
          (bonusBucket repo).tools) := by
    show ((depUpdateBucket repo).tools ++ _) ++ _ = _
    rw [hTools]
    rfl
  rw [depsec_measured_def, if_neg (by rw [hts]; simp), hts]
  exact strContains_joinSep_head (by decide)

theorem depsec_score_ge30 {repo : Repository}
    (hD : repo.path_exists ".github/dependabot.yml" = true) :
    (30 : ℚ) ≤ (dependencySecurity_assess repo).score := by
  rw [depsec_score_def]
  have h1 := (depUpdateBucket_dependabot hD).2.1
  have h2 := totalBucket_points_ge_dep repo
  linarith

theorem ite_pass_fail (c : Prop) [Decidable c] :
    (if c then "pass" else "fail") = "pass" ∨
    (if c then "pass" else "fail") = "fail" := by
  split
  · exact Or.inl rfl
  · exact Or.inr rfl

theorem standardLayout_validStatus (repo : Repository) :
    validStatus (standardLayout_assess repo) := by
  unfold validStatus
  show standardLayout_status repo = "pass" ∨ _
  unfold standardLayout_status
  rcases ite_pass_fail ((75 : ℚ) ≤ standardLayout_score repo) with h | h
  · exact Or.inl h
  · exact Or.inr (Or.inl h)

theorem oneCommand_validStatus (repo : Repository) :
    validStatus (oneCommandSetup_assess repo) := by
  unfold validStatus oneCommandSetup_assess
  split
  · right; right; right; rfl
  · cases hr : repo.read_text "README.md" with
    | error e =>
      dsimp only
      right; right; left; rfl
    | ok content =>
      dsimp only
      rcases ite_pass_fail
          ((75 : ℚ) ≤ ((if find_setup_command content repo.languages ≠ "" then (40:ℚ) else 0) +
            (if check_setup_files repo ≠ [] then 30 else 0) +
            (if is_setup_prominent content then 30 else 0))) with h | h
      · exact Or.inl h
      · exact Or.inr (Or.inl h)

theorem depsec_validStatus (repo : Repository) :
    validStatus (dependencySecurity_assess repo) := by
  unfold validStatus
  show (if (60 : ℚ) ≤ (totalBucket repo).points then "pass" else "fail") = "pass" ∨ _
  rcases ite_pass_fail ((60 : ℚ) ≤ (totalBucket repo).points) with h | h
  · exact Or.inl h
  · exact Or.inr (Or.inl h)

theorem convCommits_validStatus (repo : Repository) :
    validStatus (conventionalCommits_assess repo) := by
  unfold validStatus conventionalCommits_assess
  split
  · exact Or.inl rfl
  · exact Or.inr (Or.inl rfl)

theorem conventionalCommitsFound_false {repo : Repository} {m1 m2 : String}
    (hpj : repo.parse_json "package.json" = Except.error m1)
    (hpc : repo.parse_yaml ".pre-commit-config.yaml" = Except.error m2)
    (hfiles : ∀ f ∈ commitlintConfigFiles, repo.path_exists f = false)
    (hhusky : repo.path_exists ".husky" = false) :
    conventionalCommitsFound repo = false := by
  have h1 : commitlintConfigFiles.any (fun f => repo.path_exists f) = false := by
    rw [List.any_eq_false]
    intro f hf
    simp [hfiles f hf]
  have h2 : precommitHasConventionalHook repo = false := by
    unfold precommitHasConventionalHook
    rw [hpc]
  unfold conventionalCommitsFound
  rw [h1, hhusky, hpj, h2]
  rfl

theorem conv_commits_fail {repo : Repository} {m1 m2 : String}
    (hpj : repo.parse_json "package.json" = Except.error m1)
    (hpc : repo.parse_yaml ".pre-commit-config.yaml" = Except.error m2)
    (hfiles : ∀ f ∈ commitlintConfigFiles, repo.path_exists f = false)
    (hhusky : repo.path_exists ".husky" = false) :
    (conventionalCommits_assess repo).status = "fail" ∧
    (conventionalCommits_assess repo).score = 0 := by
  unfold conventionalCommits_assess
  rw [conventionalCommitsFound_false hpj hpc hfiles hhusky]
  exact ⟨rfl, rfl⟩

/-- C4: when candidate configuration files are malformed (invalid JSON in
package.json, invalid YAML in the pre-commit config), every modelled assessor
still returns a Finding carrying one of the four statuses; the malformed
source is treated as absent (no Renovate credit can come from the broken
package.json) while the remaining candidate sources are still checked (a
Dependabot config still earns its credit, and the conventional-commits
assessor degrades to a plain fail). -/
theorem assess_malformed_config_safe (repo : Repository) (m1 m2 : String)
    (hpj : repo.parse_json "package.json" = Except.error m1)
    (hpc : repo.parse_yaml ".pre-commit-config.yaml" = Except.error m2) :
    validStatus (standardLayout_assess repo) ∧
    validStatus (oneCommandSetup_assess repo) ∧
    validStatus (dependencySecurity_assess repo) ∧
    validStatus (conventionalCommits_assess repo) ∧
    (findRenovateFile repo = none →
      strContains (dependencySecurity_assess repo).measured_value "Renovate" = false) ∧
    (repo.path_exists ".github/dependabot.yml" = true →
      strContains (dependencySecurity_assess repo).measured_value "Dependabot" = true ∧
      (30 : ℚ) ≤ (dependencySecurity_assess repo).score) ∧
    ((∀ f ∈ commitlintConfigFiles, repo.path_exists f = false) →
      repo.path_exists ".husky" = false →
      (conventionalCommits_assess repo).status = "fail" ∧
      (conventionalCommits_assess repo).score = 0) := by
  refine ⟨standardLayout_validStatus repo, oneCommand_validStatus repo,
    depsec_validStatus repo, convCommits_validStatus repo, ?_, ?_, ?_⟩
  · intro hF
    apply depsec_measured_noRenovate
    by_cases hD : repo.path_exists ".github/dependabot.yml" = true
    · rw [(depUpdateBucket_dependabot hD).1]
      intro t ht
      rw [List.mem_singleton] at ht
      subst ht
      decide
    · simp only [Bool.not_eq_true] at hD
      rw [depUpdateBucket_empty hD hF (packageJsonRenovate_error hpj)]
      intro t ht
      cases ht
  · intro hD
    exact ⟨depsec_measured_dependabot hD, depsec_score_ge30 hD⟩
  · intro hfiles hhusky
    exact conv_commits_fail hpj hpc hfiles hhusky

/-- Witness for C4 at a repository whose package.json and pre-commit config
are malformed while a Dependabot config is present. -/
theorem assess_malformed_config_safe_witness :
    repoMalformedConfigs.parse_json "package.json" =
      Except.error "Expecting property name enclosed in double quotes" ∧
    repoMalformedConfigs.parse_yaml ".pre-commit-config.yaml" =
      Except.error "could not determine a constructor for the tag" ∧
    validStatus (dependencySecurity_assess repoMalformedConfigs) ∧
    strContains (dependencySecurity_assess repoMalformedConfigs).measured_value
      "Renovate" = false ∧
    (strContains (dependencySecurity_assess repoMalformedConfigs).measured_value
      "Dependabot" = true ∧
     (30 : ℚ) ≤ (dependencySecurity_assess repoMalformedConfigs).score) ∧
    ((conventionalCommits_assess repoMalformedConfigs).status = "fail" ∧
     (conventionalCommits_assess repoMalformedConfigs).score = 0) := by
  have h := assess_malformed_config_safe repoMalformedConfigs
    "Expecting property name enclosed in double quotes"
    "could not determine a constructor for the tag" rfl rfl
  exact ⟨rfl, rfl, h.2.2.1, h.2.2.2.2.1 rfl, h.2.2.2.2.2.1 rfl,
    h.2.2.2.2.2.2 (by decide) rfl⟩

/-- C5: with both a Dependabot config and a Renovate config present, the
dependency-security finding credits only the first mechanism in the fixed
priority order: its measured value and evidence mention Dependabot and never
mention Renovate. -/
theorem depsec_dependabot_first_match (repo : Repository)
    (hD : repo.path_exists ".github/dependabot.yml" = true)
    (hR : repo.path_exists "renovate.json" = true) :
    strContains (dependencySecurity_assess repo).measured_value "Dependabot" = true ∧
    strContains (dependencySecurity_assess repo).measured_value "Renovate" = false ∧
    (∃ e ∈ (dependencySecurity_assess repo).evidence,
      strContains e "Dependabot" = true) ∧
    (∀ e ∈ (dependencySecurity_assess repo).evidence,
      strContains e "Renovate" = false) := by
  obtain ⟨hTools, hPts, ⟨rest, hEv⟩, hEvAll⟩ := depUpdateBucket_dependabot hD
  refine ⟨depsec_measured_dependabot hD, depsec_measured_noRenovate ?_, ?_,
    depsec_evidence_noRenovate (depUpdate_dependabot_evidence_noRenovate hD)⟩
  · rw [hTools]
    intro t ht
    rw [List.mem_singleton] at ht
    subst ht
    decide
  · refine ⟨"Dependabot configured (.github/dependabot.yml)", ?_, by decide⟩
    have hmem : "Dependabot configured (.github/dependabot.yml)" ∈
        (depUpdateBucket repo).evidence := by
      rw [hEv]
      exact List.mem_cons_self _ _
    have htot : (totalBucket repo).evidence =
        ((depUpdateBucket repo).evidence ++ ((codeqlBucket repo).evidence ++
          ((pySecBucket repo).evidence ++ ((jsSecBucket repo).evidence ++
            (secretBucket repo).evidence)))) ++ (bonusBucket repo).evidence := rfl
    rw [depsec_evidence_def, htot]
    exact List.mem_append_left _ (List.mem_append_left _ hmem)

/-- Witness for C5 at a repository containing both configs. -/
theorem depsec_dependabot_first_match_witness :
    repoDependabotAndRenovate.path_exists ".github/dependabot.yml" = true ∧
    repoDependabotAndRenovate.path_exists "renovate.json" = true ∧
    (strContains (dependencySecurity_assess repoDependabotAndRenovate).measured_value
        "Dependabot" = true ∧
     strContains (dependencySecurity_assess repoDependabotAndRenovate).measured_value
        "Renovate" = false ∧
     (∃ e ∈ (dependencySecurity_assess repoDependabotAndRenovate).evidence,
        strContains e "Dependabot" = true) ∧
     (∀ e ∈ (dependencySecurity_assess repoDependabotAndRenovate).evidence,
        strContains e "Renovate" = false)) :=
  ⟨rfl, rfl, depsec_dependabot_first_match repoDependabotAndRenovate rfl rfl⟩

/-- C6: when the only security mechanism is a Renovate configuration file, a
parse revealing only schema/meta keys earns exactly the 30-point base with no
Meaningful evidence entry, while a non-trivial extends/packageRules key earns
exactly 35. -/
theorem depsec_renovate_bonus_gating (repo : Repository) (f : String) (v : JVal)
    (hD : repo.path_exists ".github/dependabot.yml" = false)
    (hF : findRenovateFile repo = some f)
    (hP : repo.parse_json f = Except.ok v)
    (hCode : codeqlBucket repo = emptyBucket)
    (hPy : pySecBucket repo = emptyBucket)
    (hJs : jsSecBucket repo = emptyBucket)
    (hSec : secretBucket repo = emptyBucket)
    (hPol : repo.path_exists "SECURITY.md" = false) :
    (meaningfulRenovate v = false →
      (dependencySecurity_assess repo).score = 30 ∧
      ∀ e ∈ (dependencySecurity_assess repo).evidence,
        strContains e "Meaningful" = false) ∧
    (meaningfulRenovate v = true →
      (dependencySecurity_assess repo).score = 35) := by
  obtain ⟨hp, he, ht⟩ := totalBucket_only_dep hCode hPy hJs hSec hPol
  have hDep := depUpdateBucket_renovate_ok hD hF hP
  constructor
  · intro hm
    rw [hm] at hDep
    simp only [Bool.false_eq_true, if_false] at hDep
    constructor
    · rw [depsec_score_def, hp, hDep]
    · intro e hee
      rw [depsec_evidence_def, he, hDep] at hee
      rw [List.mem_singleton] at hee
      subst hee
      have hf := findRenovateFile_mem hF
      unfold strContains
      apply not_listContainsSub (c := 'M') (by decide)
      rw [String.data_append, String.data_append]
      intro hmem
      rcases List.mem_append.mp hmem with hm1 | hm1
      · rcases List.mem_append.mp hm1 with hm2 | hm2
        · revert hm2
          decide
        · simp only [renovateFileCandidates, List.mem_cons, List.not_mem_nil,
            or_false] at hf
          rcases hf with rfl | rfl | rfl | rfl | rfl | rfl <;> revert hm2 <;> decide
      · revert hm1
        decide
  · intro hm
    rw [hm] at hDep
    simp only [if_true] at hDep
    rw [depsec_score_def, hp, hDep]

theorem addBucket_empty_empty : addBucket emptyBucket emptyBucket = emptyBucket := by
  simp [addBucket, emptyBucket]

/-- Witness for C6 at a schema-only Renovate file (score 30, no Meaningful
evidence) and at a Renovate file with a non-trivial extends key (score 35). -/
theorem depsec_renovate_bonus_gating_witness :
    ((dependencySecurity_assess repoRenovateMinimal).score = 30 ∧
     ∀ e ∈ (dependencySecurity_assess repoRenovateMinimal).evidence,
       strContains e "Meaningful" = false) ∧
    (dependencySecurity_assess repoRenovateMeaningful).score = 35 :=
  ⟨(depsec_renovate_bonus_gating repoRenovateMinimal "renovate.json" _
      rfl rfl rfl rfl
      ((rfl : pySecBucket repoRenovateMinimal =
          addBucket emptyBucket emptyBucket).trans addBucket_empty_empty)
      rfl rfl rfl).1 rfl,
   (depsec_renovate_bonus_gating repoRenovateMeaningful "renovate.json" _
      rfl rfl rfl rfl
      ((rfl : pySecBucket repoRenovateMeaningful =
          addBucket emptyBucket emptyBucket).trans addBucket_empty_empty)
      rfl rfl rfl).2 rfl⟩

/-- C7: an unparsable renovate.json5 combined with a meaningful `renovate` key
inside package.json earns exactly 35 — the 30-point base from the file plus
the 5-point meaningful-configuration bonus from the fallback. -/
theorem depsec_renovate_fallback_bonus (repo : Repository) (msg : String)
    (pj rv : JVal)
    (hD : repo.path_exists ".github/dependabot.yml" = false)
    (hF : findRenovateFile repo = some "renovate.json5")
    (hP : repo.parse_json "renovate.json5" = Except.error msg)
    (hPkg : repo.parse_json "package.json" = Except.ok pj)
    (hKey : pj.lookup "renovate" = some rv)
    (hNE : nonEmptyObj rv = true)
    (hCode : codeqlBucket repo = emptyBucket)
    (hPy : pySecBucket repo = emptyBucket)
    (hJs : jsSecBucket repo = emptyBucket)
    (hSec : secretBucket repo = emptyBucket)
    (hPol : repo.path_exists "SECURITY.md" = false) :
    (dependencySecurity_assess repo).score = 35 ∧
    ∃ e ∈ (dependencySecurity_assess repo).evidence,
      strContains e "Meaningful Renovate configuration detected" = true := by
  obtain ⟨hp, he, ht⟩ := totalBucket_only_dep hCode hPy hJs hSec hPol
  have hpkg : packageJsonRenovate repo = some rv := by
    unfold packageJsonRenovate
    rw [hPkg]
    exact hKey
  have hDep := depUpdateBucket_renovate_err_fallback hD hF hP hpkg
  rw [hNE] at hDep
  simp only [if_true] at hDep
  constructor
  · rw [depsec_score_def, hp, hDep]
  · refine ⟨"Meaningful Renovate configuration detected", ?_, by decide⟩
    rw [depsec_evidence_def, he, hDep]
    simp

/-- Witness for C7 at a repository with an unparsable renovate.json5 and a
meaningful renovate key inside package.json. -/
theorem depsec_renovate_fallback_bonus_witness :
    repoRenovateJson5Fallback.parse_json "renovate.json5" =
      Except.error "comments and trailing commas are not valid JSON" ∧
    ((dependencySecurity_assess repoRenovateJson5Fallback).score = 35 ∧
     ∃ e ∈ (dependencySecurity_assess repoRenovateJson5Fallback).evidence,
       strContains e "Meaningful Renovate configuration detected" = true) :=
  ⟨rfl, depsec_renovate_fallback_bonus repoRenovateJson5Fallback
    "comments and trailing commas are not valid JSON" _ _
    rfl rfl rfl rfl rfl rfl rfl
    ((rfl : pySecBucket repoRenovateJson5Fallback =
        addBucket emptyBucket emptyBucket).trans addBucket_empty_empty)
    ((rfl : jsSecBucket repoRenovateJson5Fallback =
        addBucket emptyBucket emptyBucket).trans addBucket_empty_empty)
    rfl rfl⟩
